import Mathlib

/-!
Verification of the ARQ network-protocol simulation engine in
`src/app/page.tsx` (component `NetworkProtocolSimulator`).

The engine is a React component; its state lives in `useState` hooks and
its delayed effects in `setTimeout` callbacks.  The shallow embedding
below models that faithfully:

* each `useState` variable is a field of `SimState`;
* each event handler (`sendPacket`, `sendAck`, `sendNack`, `losePacket`,
  `resetSimulation`, protocol / window-size change) is an executable
  function `SimState → SimState`, where reads of state variables inside
  the handler use the values captured at call time (React closures see
  the render-time values) while functional updates (`set… (prev => …)`)
  act on the accumulated state;
* each `setTimeout` callback becomes an explicit pending event (`Ev`);
  the data a callback closes over (the render-time `packets`,
  `senderWindow`, `protocol`) is stored inside the event, since the real
  closure would read exactly those captured values when it fires;
* `Date.now()` (used for ids and timestamps) is modelled by the
  monotone counter `freshId`;
* `Math.min(...xs)` over a possibly-empty array is `jsMinInf`, with
  `none` standing for the JavaScript `Infinity` of the empty case.

A step of the whole system (`step`) is either one UI command or the
firing of one pending timeout (chosen by index, since independent
timeouts may interleave with commands).  `Reachable` is the set of
states reachable from the initial render.
-/

inductive Protocol
  | simple
  | stopAndWait
  | goBackN
  | selectiveRepeat
deriving DecidableEq

inductive PStatus
  | sending
  | sent
  | acknowledged
  | lost
  | retransmitting
  | received
  | buffered
  | discarded
deriving DecidableEq

structure Packet where
  id : Nat
  sequenceNumber : Nat
  data : String
  status : PStatus
  timestamp : Nat
  isRetransmission : Bool
deriving DecidableEq

inductive AckType
  | ACK
  | NACK
deriving DecidableEq

inductive AStatus
  | sending
  | received
deriving DecidableEq

structure AckPacket where
  id : Nat
  sequenceNumber : Nat
  status : AStatus
  timestamp : Nat
  type : AckType
deriving DecidableEq

/-- Pending `setTimeout` callbacks.  Each constructor stores the data the
real closure captured at scheduling time. -/
inductive Ev
  | frameArrive (pid : Nat)
  | retransArrive (pid : Nat) (cp : Protocol)
  | ackDelay (aid : Nat) (seqNum : Nat) (ty : AckType) (cp : Protocol)
  | nackDelay (aid : Nat) (seqNum : Nat) (cp : Protocol) (cw : List Nat) (cpkts : List Packet)
  | gbnRetrans (cw : List Nat) (cpkts : List Packet) (cp : Protocol)
  | retransCall (seqNum : Nat) (cpkts : List Packet) (cp : Protocol)
deriving DecidableEq

structure SimState where
  protocol : Protocol
  packets : List Packet
  acks : List AckPacket
  isSimulating : Bool
  windowSize : Nat
  nextSequenceNumber : Nat
  expectedSequenceNumber : Nat
  senderWindow : List Nat
  receiverBuffer : List Packet
  waitingForAck : Bool
  freshId : Nat
  pending : List Ev
deriving DecidableEq

/-- `Math.min(...xs)`: `none` models the `Infinity` returned on an empty
spread argument list. -/
def jsMinInf : List Nat → Option Nat
  | [] => none
  | x :: xs =>
    match jsMinInf xs with
    | none => some x
    | some m => some (min x m)

/-- `q >= from` where `from` may be the `Infinity` of an empty-window
`Math.min`; nothing is `>= Infinity`. -/
def geInf (fromSeq : Option Nat) (q : Nat) : Bool :=
  match fromSeq with
  | none => false
  | some b => decide (b ≤ q)

/-- `canSendPacket` (page.tsx lines 62-82). -/
def canSendPacket (s : SimState) : Bool :=
  if s.isSimulating then false
  else
    match s.protocol with
    | .simple => true
    | .stopAndWait => !s.waitingForAck
    | .goBackN | .selectiveRepeat =>
      if s.windowSize ≤ s.senderWindow.length then false
      else if s.senderWindow.length = 0 then true
      else
        match jsMinInf s.senderWindow with
        | none => true
        | some base =>
          decide ((base : ℤ) ≤ (s.nextSequenceNumber : ℤ)
            ∧ (s.nextSequenceNumber : ℤ) ≤ (base : ℤ) + (s.windowSize : ℤ) - 1)

/-- `sendPacket` (page.tsx lines 84-108): create the new frame, append it,
extend the window (Go-Back-N / Selective-Repeat), set the Stop-and-Wait
waiting flag, schedule the arrival callback, bump the sequence counter. -/
def sendPacket (s : SimState) : SimState :=
  if canSendPacket s = false then s
  else
    let newPacket : Packet :=
      { id := s.freshId
        sequenceNumber := s.nextSequenceNumber
        data := "Frame " ++ toString s.nextSequenceNumber
        status := .sending
        timestamp := s.freshId
        isRetransmission := false }
    { s with
      isSimulating := true
      packets := s.packets ++ [newPacket]
      senderWindow :=
        if s.protocol = .goBackN ∨ s.protocol = .selectiveRepeat then
          s.senderWindow ++ [s.nextSequenceNumber]
        else s.senderWindow
      waitingForAck := if s.protocol = .stopAndWait then true else s.waitingForAck
      pending := s.pending ++ [.frameArrive s.freshId]
      nextSequenceNumber := s.nextSequenceNumber + 1
      freshId := s.freshId + 1 }

/-- `retransmitPacket` (page.tsx lines 110-130), as executed when a timer
body calls it: the lookup runs over the `packets` captured when the
callback was created (`cpkts`), while the append lands on the current
list; the arrival callback is scheduled with the captured protocol. -/
def retransmitPacket (s : SimState) (cpkts : List Packet) (seqNum : Nat) (cp : Protocol) : SimState :=
  match cpkts.find? (fun p => decide (p.sequenceNumber = seqNum)) with
  | none => s
  | some orig =>
    let rp : Packet :=
      { id := s.freshId
        sequenceNumber := seqNum
        data := orig.data
        status := .retransmitting
        timestamp := s.freshId
        isRetransmission := true }
    { s with
      packets := s.packets ++ [rp]
      pending := s.pending ++ [.retransArrive s.freshId cp]
      freshId := s.freshId + 1 }

/-- The single filter pass over the reorder buffer in the Selective-Repeat
branch of `sendAck` (page.tsx lines 199-206): visit the buffer in arrival
order, dropping an element exactly when it equals the running
`nextExpected`, which is incremented on each drop. -/
def srDrain (ne : Nat) : List Packet → Nat × List Packet
  | [] => (ne, [])
  | p :: rest =>
    if p.sequenceNumber = ne then srDrain (ne + 1) rest
    else
      let r := srDrain ne rest
      (r.1, p :: r.2)

/-- Predicate of the frame lookup at the top of `sendAck` (page.tsx
line 159). -/
def ackFound (seqNum : Nat) (p : Packet) : Bool :=
  decide (p.sequenceNumber = seqNum ∧ p.status = .received)

/-- `sendAck` (page.tsx lines 158-245).  Every protocol branch ends with
`shouldSendAck = true`; the acknowledgment record is appended for every
protocol except Stop-and-Wait, and the delayed callback is scheduled with
the call-time protocol and computed ack type. -/
def sendAck (s : SimState) (seqNum : Nat) : SimState :=
  match s.packets.find? (ackFound seqNum) with
  | none => s
  | some packet =>
    let E := s.expectedSequenceNumber
    let core : AckType × SimState :=
      match s.protocol with
      | .simple => (.ACK, s)
      | .stopAndWait =>
        if seqNum = E then (.ACK, { s with expectedSequenceNumber := E + 1 })
        else (.NACK, s)
      | .goBackN =>
        (.ACK,
          if E ≤ seqNum then
            if seqNum = E then
              { s with
                expectedSequenceNumber := E + 1
                senderWindow :=
                  s.senderWindow.filter (fun m => decide ((E : ℤ) - 1 < (m : ℤ))) }
            else
              { s with senderWindow := s.senderWindow.filter (fun m => decide (m ≠ seqNum)) }
          else s)
      | .selectiveRepeat =>
        (.ACK,
          if seqNum ≠ E then
            { s with
              receiverBuffer := s.receiverBuffer ++ [packet]
              packets := s.packets.map (fun p =>
                if p.sequenceNumber = seqNum then { p with status := .buffered } else p) }
          else
            let r := srDrain (E + 1) s.receiverBuffer
            { s with expectedSequenceNumber := r.1, receiverBuffer := r.2 })
    let ackType := core.1
    let s1 := core.2
    let newAck : AckPacket :=
      { id := s1.freshId
        sequenceNumber := seqNum
        status := .sending
        timestamp := s1.freshId
        type := ackType }
    { s1 with
      acks := if s.protocol ≠ .stopAndWait then s1.acks ++ [newAck] else s1.acks
      pending := s1.pending ++ [.ackDelay s1.freshId seqNum ackType s.protocol]
      freshId := s1.freshId + 1 }

/-- `sendNack` (page.tsx lines 247-275), call-time part: build the NACK
record, append it unless the protocol is Stop-and-Wait, and schedule the
delayed callback, which closes over the render-time window and packet
list. -/
def sendNack (s : SimState) (seqNum : Nat) : SimState :=
  let newAck : AckPacket :=
    { id := s.freshId
      sequenceNumber := seqNum
      status := .sending
      timestamp := s.freshId
      type := .NACK }
  { s with
    acks := if s.protocol ≠ .stopAndWait then s.acks ++ [newAck] else s.acks
    pending := s.pending ++ [.nackDelay s.freshId seqNum s.protocol s.senderWindow s.packets]
    freshId := s.freshId + 1 }

/-- `losePacket` (page.tsx lines 141-156): mark the frame lost, then per
protocol schedule a single retransmission (Stop-and-Wait,
Selective-Repeat) or a whole-window resend from the base (Go-Back-N).
The scheduled callbacks close over the call-time `packets` and
`senderWindow`. -/
def losePacket (s : SimState) (pid : Nat) : SimState :=
  let s1 :=
    { s with
      packets := s.packets.map (fun p =>
        if p.id = pid then { p with status := .lost } else p) }
  match s.packets.find? (fun p => decide (p.id = pid)) with
  | none => s1
  | some packet =>
    match s.protocol with
    | .stopAndWait =>
      { s1 with pending := s1.pending ++ [.retransCall packet.sequenceNumber s.packets s.protocol] }
    | .goBackN =>
      { s1 with pending := s1.pending ++ [.gbnRetrans s.senderWindow s.packets s.protocol] }
    | .selectiveRepeat =>
      { s1 with pending := s1.pending ++ [.retransCall packet.sequenceNumber s.packets s.protocol] }
    | .simple => s1

/-- `resetSimulation` (page.tsx lines 50-60).  Scheduled timeouts are not
cancelled by the source; `pending` therefore survives a reset, as do the
configuration (`protocol`, `windowSize`) and the id clock. -/
def resetSimulation (s : SimState) : SimState :=
  { s with
    packets := []
    acks := []
    nextSequenceNumber := 0
    expectedSequenceNumber := 0
    senderWindow := []
    receiverBuffer := []
    waitingForAck := false
    isSimulating := false }

/-- Helper of the delayed callbacks: mark one acknowledgment record
`received` by id. -/
def markAckReceived (aid : Nat) (a : AckPacket) : AckPacket :=
  if a.id = aid then { a with status := .received } else a

/-- Firing one pending timeout.  Each branch is the body of the
corresponding `setTimeout` callback in the source, with captured data
read from the event. -/
def fireEvent (t : SimState) : Ev → SimState
  | .frameArrive pid =>
    { t with
      packets := t.packets.map (fun p =>
        if p.id = pid then { p with status := .received } else p)
      isSimulating := false }
  | .retransArrive pid cp =>
    let t1 :=
      { t with
        packets := t.packets.map (fun p =>
          if p.id = pid then { p with status := .received } else p) }
    if cp = .stopAndWait then { t1 with waitingForAck := false } else t1
  | .ackDelay aid seqNum ty cp =>
    let t1 :=
      if cp ≠ .stopAndWait then { t with acks := t.acks.map (markAckReceived aid) } else t
    if ty = .ACK then
      let t2 :=
        { t1 with
          packets := t1.packets.map (fun p =>
            if p.sequenceNumber = seqNum then { p with status := .acknowledged } else p) }
      let t3 :=
        if cp = .goBackN ∨ cp = .selectiveRepeat then
          { t2 with senderWindow := t2.senderWindow.filter (fun m => decide (m ≠ seqNum)) }
        else t2
      if cp = .stopAndWait then { t3 with waitingForAck := false } else t3
    else t1
  | .nackDelay aid seqNum cp cw cpkts =>
    let t1 :=
      if cp ≠ .stopAndWait then { t with acks := t.acks.map (markAckReceived aid) } else t
    let t2 :=
      { t1 with
        packets := t1.packets.map (fun p =>
          if p.sequenceNumber = seqNum then { p with status := .lost } else p) }
    match cp with
    | .stopAndWait => retransmitPacket t2 cpkts seqNum cp
    | .goBackN => { t2 with pending := t2.pending ++ [.gbnRetrans cw cpkts cp] }
    | .selectiveRepeat => retransmitPacket t2 cpkts seqNum cp
    | .simple => t2
  | .gbnRetrans cw cpkts cp =>
    let toRetrans := cw.filter (fun m => geInf (jsMinInf cw) m)
    { t with pending := t.pending ++ toRetrans.map (fun m => Ev.retransCall m cpkts cp) }
  | .retransCall seqNum cpkts cp => retransmitPacket t cpkts seqNum cp

/-- The public commands of the engine plus the firing of the i-th pending
timeout. -/
inductive Cmd
  | setProt (p : Protocol)
  | setWin (n : Nat)
  | send
  | ack (q : Nat)
  | nack (q : Nat)
  | lose (pid : Nat)
  | reset
  | fire (i : Nat)
deriving DecidableEq

def step (s : SimState) : Cmd → SimState
  | .setProt p => resetSimulation { s with protocol := p }
  | .setWin n => resetSimulation { s with windowSize := n }
  | .send => sendPacket s
  | .ack q => sendAck s q
  | .nack q => sendNack s q
  | .lose pid => losePacket s pid
  | .reset => resetSimulation s
  | .fire i =>
    match s.pending.get? i with
    | none => s
    | some e => fireEvent { s with pending := s.pending.eraseIdx i } e

def steps (s : SimState) (cs : List Cmd) : SimState :=
  cs.foldl step s

/-- The initial render: `useState` initial values of page.tsx lines
31-41. -/
def initState : SimState :=
  { protocol := .stopAndWait
    packets := []
    acks := []
    isSimulating := false
    windowSize := 4
    nextSequenceNumber := 0
    expectedSequenceNumber := 0
    senderWindow := []
    receiverBuffer := []
    waitingForAck := false
    freshId := 0
    pending := [] }

inductive Reachable : SimState → Prop
  | init : Reachable initState
  | step : ∀ {s : SimState} (c : Cmd), Reachable s → Reachable (step s c)

/-- The success-rate statistic (page.tsx line 683):
`packets.length > 0 ? Math.round((acknowledged / nonRetransmitted) * 100) : 0`.
JavaScript division by zero yields NaN (0/0) or Infinity, neither of
which is an integer percentage; that case is modelled as `none`.
`jsRound` is `Math.round`, which rounds half toward positive infinity. -/
def jsRound (q : ℚ) : ℤ := ⌊q + 1 / 2⌋

def successRate (packets : List Packet) : Option ℤ :=
  if 0 < packets.length then
    let ackCount : ℚ := ((packets.filter (fun p => decide (p.status = .acknowledged))).length : ℚ)
    let denom : ℚ := ((packets.filter (fun p => !p.isRetransmission)).length : ℚ)
    if denom = 0 then none
    else some (jsRound (ackCount / denom * 100))
  else some 0

/-- Fire the head of the pending-timeout queue `n` times. -/
def iterateFire : Nat → SimState → SimState
  | 0, t => t
  | n + 1, t => iterateFire n (step t (.fire 0))

/-- The frames appended by a staggered sequence of `retransmitPacket`
calls over captured packets `cpkts`, starting from id clock `fid`. -/
def mkRetransList (cpkts : List Packet) (fid : Nat) : List Nat → List Packet
  | [] => []
  | m :: rest =>
    match cpkts.find? (fun p => decide (p.sequenceNumber = m)) with
    | none => mkRetransList cpkts fid rest
    | some orig =>
      { id := fid
        sequenceNumber := m
        data := orig.data
        status := .retransmitting
        timestamp := fid
        isRetransmission := true } :: mkRetransList cpkts (fid + 1) rest

/-- Selective-Repeat scenario of the spec's testable property: frames
0, 1, 2 all received, then acknowledge 2, 1, 0 in that order. -/
def c1State : SimState :=
  steps initState
    [.setProt .selectiveRepeat, .send, .fire 0, .send, .fire 0, .send, .fire 0,
     .ack 2, .ack 1, .ack 0]

/-- Go-Back-N scenario: frames 0, 1, 2 sent and received
(window `[0, 1, 2]`, expected 0), then acknowledge 0. -/
def c2CexState : SimState :=
  steps initState
    [.setProt .goBackN, .send, .fire 0, .send, .fire 0, .send, .fire 0, .ack 0]

/-- Selective-Repeat scenario: frame 0 received, then acknowledged twice
before the acknowledgment's delayed callback fires. -/
def c3State : SimState :=
  steps initState [.setProt .selectiveRepeat, .send, .fire 0, .ack 0, .ack 0]

/-- Selective-Repeat scenario: frame 0 received and negative-acknowledged,
then the simulation is reset before the NACK's delayed callback fires;
the callback then retransmits into the emptied registry, leaving a
registry whose only frame is a retransmission. -/
def c4CexState : SimState :=
  steps initState [.setProt .selectiveRepeat, .send, .fire 0, .nack 0, .reset, .fire 0]

/-- Go-Back-N scenario: frames 0, 1, 2 sent and received, window
`[0, 1, 2]`, no pending timeouts. -/
def c6PreState : SimState :=
  steps initState [.setProt .goBackN, .send, .fire 0, .send, .fire 0, .send, .fire 0]

/-- Stop-and-Wait scenario with every timeout fired strictly in schedule
(FIFO) order, so the interleaving is realizable with the source's actual
delays: frame 0 is sent, arrives and is acknowledged (the expected
number advances to 1); the frame is then lost before the
acknowledgment's delayed callback fires; that earlier-scheduled callback
fires first (marking frame 0 Acknowledged and clearing the flag), then
the loss-triggered retransmission fires and its new frame — sequence
number 0 again — arrives as Received; finally frame 1 is sent and
arrives.  At this point a Received frame with sequence number 0 exists,
`expectedSequenceNumber = 1`, `waitingForAck` is true (frame 1 is
unacknowledged) and no timeout is pending. -/
def c7CexPre : SimState :=
  steps initState
    [.setProt .stopAndWait, .send, .fire 0, .ack 0, .lose 0, .fire 0, .fire 0, .fire 0,
     .send, .fire 0]

/-- Continuation: acknowledging sequence number 0 (the Received
retransmitted frame) mismatches the expected number 1 and is treated as
a NACK; its delayed callback — the only timeout scheduled, so no
ordering question arises — then fires. -/
def c7CexState : SimState :=
  steps c7CexPre [.ack 0, .fire 0]

lemma jsMinInf_eq_none : ∀ {l : List Nat}, jsMinInf l = none → l = [] := by
  intro l h
  cases l with
  | nil => rfl
  | cons x xs =>
    exfalso
    unfold jsMinInf at h
    cases hx : jsMinInf xs <;> rw [hx] at h <;> simp at h

lemma jsMinInf_le : ∀ {l : List Nat} {m : Nat}, m ∈ l →
    ∃ b, jsMinInf l = some b ∧ b ≤ m := by
  intro l
  induction l with
  | nil => intro m hm; cases hm
  | cons x xs ih =>
    intro m hm
    rcases List.mem_cons.mp hm with hmx | hmxs
    · subst hmx
      cases hx : jsMinInf xs with
      | none => exact ⟨m, by simp [jsMinInf, hx], le_refl m⟩
      | some b => exact ⟨min m b, by simp [jsMinInf, hx], min_le_left m b⟩
    · rcases ih hmxs with ⟨b, hb, hle⟩
      cases hx : jsMinInf xs with
      | none => rw [hx] at hb; cases hb
      | some b2 =>
        rw [hx] at hb
        cases hb
        exact ⟨min x b, by simp [jsMinInf, hx], le_trans (min_le_right x b) hle⟩

lemma geInf_of_mem {l : List Nat} {m : Nat} (h : m ∈ l) :
    geInf (jsMinInf l) m = true := by
  rcases jsMinInf_le h with ⟨b, hb, hle⟩
  simp [geInf, hb, hle]

lemma filter_geInf_self (l : List Nat) :
    l.filter (fun m => geInf (jsMinInf l) m) = l := by
  apply List.filter_eq_self.mpr
  intro m hm
  exact geInf_of_mem hm

lemma eraseIdx_concat {α : Type} (l : List α) (a : α) :
    (l ++ [a]).eraseIdx l.length = l := by
  induction l with
  | nil => rfl
  | cons x xs ih => simp [List.eraseIdx, ih]

lemma get?_concat_len {α : Type} (l : List α) (a : α) :
    (l ++ [a]).get? l.length = some a := by
  induction l with
  | nil => rfl
  | cons x xs ih => exact ih

/-- C1: the spec's Selective-Repeat buffering property fails on the code.
Starting from `expectedSequenceNumber = 0` with frames 0, 1, 2 all
Received, acknowledging 2, then 1, then 0 leaves
`expectedSequenceNumber = 2` and the reorder buffer still holding
sequence number 2: the drain is a single filter pass in arrival order
(buffer `[2, 1]`), so it consumes 1 but never revisits 2.  The claimed
outcome (`expectedSequenceNumber = 3`, empty buffer) does not hold. -/
theorem c1_sr_drain_single_pass :
    c1State.expectedSequenceNumber = 2
    ∧ c1State.receiverBuffer.map (fun p => p.sequenceNumber) = [2]
    ∧ ¬ (c1State.expectedSequenceNumber = 3 ∧ c1State.receiverBuffer = []) := by
  refine ⟨by decide, by decide, ?_⟩
  intro h
  have := h.1
  revert this
  decide

/-- C3: the claimed Selective-Repeat invariant fails on the code.  After
sending frame 0, letting it arrive and acknowledging it twice before the
acknowledgment's delayed callback fires, the frame (still in status
Received at the second call) is buffered even though its sequence number
0 is below the advanced `expectedSequenceNumber = 1`. -/
theorem c3_buffer_invariant_violated :
    c3State.expectedSequenceNumber = 1
    ∧ c3State.receiverBuffer.map (fun p => p.sequenceNumber) = [0]
    ∧ ¬ (∀ p ∈ c3State.receiverBuffer, c3State.expectedSequenceNumber < p.sequenceNumber) := by
  refine ⟨by decide, by decide, ?_⟩
  intro h
  have h0 : (0 : Nat) ∈ c3State.receiverBuffer.map (fun p => p.sequenceNumber) := by decide
  rcases List.mem_map.mp h0 with ⟨p, hp, hps⟩
  have := h p hp
  rw [hps] at this
  revert this
  decide

/-- C2 counterexample: with Go-Back-N window `[0, 1, 2]` and
`expectedSequenceNumber = 0`, acknowledging 0 advances the expected
number to 1 but drops nothing from the window at call time (the filter
keeps every member `> old expected − 1`, i.e. everything `≥ 0`), whereas
the claim requires every member `≤ 0` — in particular 0 itself — to be
dropped. -/
theorem c2_counterexample_ack_keeps_base :
    c2CexState.expectedSequenceNumber = 1
    ∧ c2CexState.senderWindow = [0, 1, 2]
    ∧ ¬ (∀ m ∈ c2CexState.senderWindow, 0 < m) := by
  refine ⟨by decide, by decide, ?_⟩
  intro h
  have h0 : (0 : Nat) ∈ c2CexState.senderWindow := by decide
  have := h 0 h0
  exact absurd this (by decide)

/-- C7 counterexample: in the Stop-and-Wait state `c7CexPre`, reached by
firing every timeout in schedule order, a frame with sequence number 0
is Received while `expectedSequenceNumber = 1` and no timeout is
pending.  Acknowledging 0 is then treated as a NACK, and after its
delayed callback — the only one scheduled — fires, the acknowledged
frame (id 2) is still Received, `waitingForAck` is still true and the
acknowledgment log is still empty: the call does not transition the
frame to Acknowledged nor clear `awaitingAck` after the transit delay,
refuting the claim's unconditional final clause on a feasible
execution. -/
theorem c7_counterexample_mismatch_ack_noop :
    (c7CexPre.packets.find? (ackFound 0)).isSome = true
    ∧ c7CexPre.expectedSequenceNumber = 1
    ∧ c7CexPre.pending = []
    ∧ c7CexState.waitingForAck = true
    ∧ c7CexState.acks = []
    ∧ c7CexState.pending = []
    ∧ c7CexState.packets.map (fun p => (p.id, p.sequenceNumber, p.status)) =
        [(0, 0, .acknowledged), (2, 0, .received), (3, 1, .received)]
    ∧ ¬ (∃ p ∈ c7CexState.packets, p.id = 2 ∧ p.status = .acknowledged) := by
  refine ⟨by decide, by decide, by decide, by decide, by decide, by decide, by decide, ?_⟩
  rintro ⟨p, hp, hid, hs⟩
  have h0 : (p.id, p.sequenceNumber, p.status)
      ∈ c7CexState.packets.map (fun p => (p.id, p.sequenceNumber, p.status)) :=
    List.mem_map.mpr ⟨p, hp, rfl⟩
  rw [show c7CexState.packets.map (fun p => (p.id, p.sequenceNumber, p.status))
      = [(0, 0, .acknowledged), (2, 0, .received), (3, 1, .received)] by decide,
    hid, hs] at h0
  simp only [List.mem_cons, List.not_mem_nil, or_false] at h0
  rcases h0 with h | h | h
  · have h1 : (2 : Nat) = 0 := congrArg (fun t => t.1) h
    exact absurd h1 (by decide)
  · have h1 : PStatus.acknowledged = PStatus.received := congrArg (fun t => t.2.2) h
    exact PStatus.noConfusion h1
  · have h1 : (2 : Nat) = 3 := congrArg (fun t => t.1) h
    exact absurd h1 (by decide)

/-- C4 counterexample: a registry whose only frame is a retransmission is
reachable (negative-acknowledge frame 0 under Selective-Repeat, reset
before the delayed callback fires, then let it fire: the callback
retransmits into the emptied registry).  There the denominator of the
success rate is 0 while frames exist, and the JavaScript source divides
by zero (NaN), modelled as `none` — the query does not equal 0 as the
claim states. -/
theorem c4_counterexample_all_retransmissions :
    c4CexState.packets.map (fun p => p.isRetransmission) = [true]
    ∧ successRate c4CexState.packets = none
    ∧ ¬ (successRate c4CexState.packets = some 0) := by
  refine ⟨by decide, by decide, ?_⟩
  intro h
  rw [show successRate c4CexState.packets = none by decide] at h
  cases h

lemma sendAck_nextSeq (s : SimState) (q : Nat) :
    (sendAck s q).nextSequenceNumber = s.nextSequenceNumber := by
  unfold sendAck
  cases hf : s.packets.find? (ackFound q) with
  | none => rfl
  | some p =>
    dsimp only
    cases hp : s.protocol <;> dsimp only <;> (try split) <;> (try split) <;> rfl

lemma sendNack_nextSeq (s : SimState) (q : Nat) :
    (sendNack s q).nextSequenceNumber = s.nextSequenceNumber := rfl

lemma losePacket_nextSeq (s : SimState) (pid : Nat) :
    (losePacket s pid).nextSequenceNumber = s.nextSequenceNumber := by
  unfold losePacket
  cases hf : s.packets.find? (fun p => decide (p.id = pid)) with
  | none => rfl
  | some p => dsimp only; cases hp : s.protocol <;> rfl

lemma retransmitPacket_nextSeq (s : SimState) (cpkts : List Packet) (q : Nat) (cp : Protocol) :
    (retransmitPacket s cpkts q cp).nextSequenceNumber = s.nextSequenceNumber := by
  unfold retransmitPacket
  cases hf : cpkts.find? (fun p => decide (p.sequenceNumber = q)) with
  | none => rfl
  | some p => rfl

lemma fireEvent_nextSeq (t : SimState) (e : Ev) :
    (fireEvent t e).nextSequenceNumber = t.nextSequenceNumber := by
  cases e with
  | frameArrive pid => rfl
  | retransArrive pid cp => unfold fireEvent; dsimp only; split <;> rfl
  | ackDelay aid q ty cp =>
    unfold fireEvent
    dsimp only
    split <;> split <;> (try split) <;> (try split) <;> rfl
  | nackDelay aid q cp cw cpkts =>
    unfold fireEvent
    cases cp <;> dsimp only <;> (try split) <;>
      simp [retransmitPacket_nextSeq]
  | gbnRetrans cw cpkts cp => rfl
  | retransCall q cpkts cp => exact retransmitPacket_nextSeq _ _ _ _

/-- C8: `nextSequenceNumber` starts at 0; it increases by exactly 1 on an
effective (non-no-op) `sendFrame`; an ineligible send, an acknowledge, a
negative acknowledge, a loss injection and every delayed callback
(including all retransmissions) leave it unchanged; reset and
reconfiguration set it back to 0. -/
theorem c8_next_sequence_counter :
    initState.nextSequenceNumber = 0
    ∧ ∀ (s : SimState) (c : Cmd),
        (step s c).nextSequenceNumber =
          match c with
          | .reset => 0
          | .setProt _ => 0
          | .setWin _ => 0
          | .send =>
            if canSendPacket s = true then s.nextSequenceNumber + 1
            else s.nextSequenceNumber
          | _ => s.nextSequenceNumber := by
  refine ⟨rfl, ?_⟩
  intro s c
  cases c with
  | setProt p => rfl
  | setWin n => rfl
  | reset => rfl
  | send => cases h : canSendPacket s <;> simp [step, sendPacket, h]
  | ack q => exact sendAck_nextSeq s q
  | nack q => rfl
  | lose pid => exact losePacket_nextSeq s pid
  | fire i =>
    show (step s (.fire i)).nextSequenceNumber = s.nextSequenceNumber
    cases hg : s.pending.get? i with
    | none => simp only [step, hg]
    | some e =>
      simp only [step, hg]
      exact fireEvent_nextSeq _ e

/-- C9: for every protocol other than Stop-and-Wait,
`negativeAcknowledge(s)` appends a NACK record for any sequence number,
with no precondition on the frame registry; `acknowledge(s)`, in
contrast, is a no-op (the state is unchanged) whenever no frame with
that sequence number and status Received exists. -/
theorem c9_nack_no_precondition :
    (∀ (s : SimState) (q : Nat), s.protocol ≠ .stopAndWait →
        (step s (.nack q)).acks = s.acks ++
          [{ id := s.freshId, sequenceNumber := q, status := .sending,
             timestamp := s.freshId, type := .NACK }])
    ∧ (∀ (s : SimState) (q : Nat),
        s.packets.find? (ackFound q) = none → step s (.ack q) = s) := by
  constructor
  · intro s q h
    show (sendNack s q).acks = _
    unfold sendNack
    dsimp only
    rw [if_pos h]
  · intro s q h
    show sendAck s q = s
    unfold sendAck
    rw [h]

/-- C9 witness: under Go-Back-N with frames 0, 1, 2 in the registry,
negative-acknowledging the nonexistent sequence number 5 appends a NACK
record, while acknowledging 5 leaves the state unchanged. -/
theorem c9_nack_no_precondition_witness :
    c6PreState.protocol ≠ .stopAndWait
    ∧ (step c6PreState (.nack 5)).acks = c6PreState.acks ++
        [{ id := c6PreState.freshId, sequenceNumber := 5, status := .sending,
           timestamp := c6PreState.freshId, type := .NACK }]
    ∧ c6PreState.packets.find? (ackFound 5) = none
    ∧ step c6PreState (.ack 5) = c6PreState :=
  ⟨by decide, c9_nack_no_precondition.1 c6PreState 5 (by decide), by decide,
    c9_nack_no_precondition.2 c6PreState 5 (by decide)⟩

lemma step_fire_concat (t : SimState) (l : List Ev) (e : Ev) (h : t.pending = l ++ [e]) :
    step t (.fire l.length) = fireEvent { t with pending := l } e := by
  show (match t.pending.get? l.length with
    | none => t
    | some e => fireEvent { t with pending := t.pending.eraseIdx l.length } e) = _
  rw [h, get?_concat_len, eraseIdx_concat]

lemma step_fire_cons (t : SimState) (e : Ev) (rest : List Ev) (h : t.pending = e :: rest) :
    step t (.fire 0) = fireEvent { t with pending := rest } e := by
  show (match t.pending.get? 0 with
    | none => t
    | some e => fireEvent { t with pending := t.pending.eraseIdx 0 } e) = _
  rw [h]
  rfl

lemma fireEvent_ackDelay_sw_ack (t : SimState) (aid q : Nat) :
    fireEvent t (.ackDelay aid q .ACK .stopAndWait) =
      { t with
        packets := t.packets.map (fun r =>
          if r.sequenceNumber = q then { r with status := .acknowledged } else r)
        waitingForAck := false } := by
  unfold fireEvent
  simp

lemma fireEvent_ackDelay_sw_nack (t : SimState) (aid q : Nat) :
    fireEvent t (.ackDelay aid q .NACK .stopAndWait) = t := by
  unfold fireEvent
  simp

lemma sendAck_sw_eq (s : SimState) (q : Nat) (p : Packet)
    (hp : s.protocol = .stopAndWait)
    (hfind : s.packets.find? (ackFound q) = some p)
    (hqe : q = s.expectedSequenceNumber) :
    sendAck s q =
      { s with
        expectedSequenceNumber := s.expectedSequenceNumber + 1
        pending := s.pending ++ [.ackDelay s.freshId q .ACK .stopAndWait]
        freshId := s.freshId + 1 } := by
  unfold sendAck
  rw [hfind]
  simp only [hp, hqe, if_pos rfl]
  simp

lemma sendAck_sw_ne (s : SimState) (q : Nat) (p : Packet)
    (hp : s.protocol = .stopAndWait)
    (hfind : s.packets.find? (ackFound q) = some p)
    (hqe : q ≠ s.expectedSequenceNumber) :
    sendAck s q =
      { s with
        pending := s.pending ++ [.ackDelay s.freshId q .NACK .stopAndWait]
        freshId := s.freshId + 1 } := by
  unfold sendAck
  rw [hfind]
  simp only [hp, if_neg hqe]
  simp

lemma sendAck_gbn_eq (s : SimState) (q : Nat) (p : Packet)
    (hp : s.protocol = .goBackN)
    (hfind : s.packets.find? (ackFound q) = some p)
    (hqe : q = s.expectedSequenceNumber) :
    sendAck s q =
      { s with
        expectedSequenceNumber := s.expectedSequenceNumber + 1
        senderWindow := s.senderWindow.filter (fun m =>
          decide ((s.expectedSequenceNumber : ℤ) - 1 < (m : ℤ)))
        acks := s.acks ++
          [{ id := s.freshId, sequenceNumber := q, status := .sending,
             timestamp := s.freshId, type := .ACK }]
        pending := s.pending ++ [.ackDelay s.freshId q .ACK .goBackN]
        freshId := s.freshId + 1 } := by
  unfold sendAck
  rw [hfind]
  simp only [hp, hqe, if_pos (le_refl s.expectedSequenceNumber), if_pos rfl]
  simp

lemma sendAck_gbn_gt (s : SimState) (q : Nat) (p : Packet)
    (hp : s.protocol = .goBackN)
    (hfind : s.packets.find? (ackFound q) = some p)
    (hqe : s.expectedSequenceNumber < q) :
    sendAck s q =
      { s with
        senderWindow := s.senderWindow.filter (fun m => decide (m ≠ q))
        acks := s.acks ++
          [{ id := s.freshId, sequenceNumber := q, status := .sending,
             timestamp := s.freshId, type := .ACK }]
        pending := s.pending ++ [.ackDelay s.freshId q .ACK .goBackN]
        freshId := s.freshId + 1 } := by
  unfold sendAck
  rw [hfind]
  simp only [hp, if_pos (le_of_lt hqe), if_neg (Nat.ne_of_gt hqe)]
  simp

lemma sendAck_gbn_lt (s : SimState) (q : Nat) (p : Packet)
    (hp : s.protocol = .goBackN)
    (hfind : s.packets.find? (ackFound q) = some p)
    (hqe : q < s.expectedSequenceNumber) :
    sendAck s q =
      { s with
        acks := s.acks ++
          [{ id := s.freshId, sequenceNumber := q, status := .sending,
             timestamp := s.freshId, type := .ACK }]
        pending := s.pending ++ [.ackDelay s.freshId q .ACK .goBackN]
        freshId := s.freshId + 1 } := by
  unfold sendAck
  rw [hfind]
  simp only [hp, if_neg (Nat.not_le_of_lt hqe)]
  simp

/-- C2 amended: under Go-Back-N, acknowledging a Received frame with
sequence number `s` yields a positive (ACK) record; if `s` equals
`expectedSequenceNumber` then the expected number advances by 1 and every
window member strictly below the old expected value is dropped at call
time (`s` itself stays in the window until the delayed callback removes
it); if `s` is greater than the expected number only `s` is dropped and
the expected number is unchanged; if `s` is below the expected number the
window and the expected number are both unchanged. -/
theorem c2_gbn_ack_amended (s : SimState) (q : Nat) (p : Packet)
    (hp : s.protocol = .goBackN)
    (hfind : s.packets.find? (ackFound q) = some p) :
    ((step s (.ack q)).expectedSequenceNumber =
        if q = s.expectedSequenceNumber then s.expectedSequenceNumber + 1
        else s.expectedSequenceNumber)
    ∧ ((step s (.ack q)).senderWindow =
        if q = s.expectedSequenceNumber then
          s.senderWindow.filter (fun m => decide (s.expectedSequenceNumber ≤ m))
        else if s.expectedSequenceNumber < q then
          s.senderWindow.filter (fun m => decide (m ≠ q))
        else s.senderWindow)
    ∧ (step s (.ack q)).acks = s.acks ++
        [{ id := s.freshId, sequenceNumber := q, status := .sending,
           timestamp := s.freshId, type := .ACK }]
    ∧ (step s (.ack q)).pending = s.pending ++ [.ackDelay s.freshId q .ACK .goBackN] := by
  have hstep : step s (.ack q) = sendAck s q := rfl
  rw [hstep]
  rcases Nat.lt_trichotomy q s.expectedSequenceNumber with hlt | heq | hgt
  · rw [sendAck_gbn_lt s q p hp hfind hlt]
    have hne : ¬ q = s.expectedSequenceNumber := Nat.ne_of_lt hlt
    have hnlt : ¬ s.expectedSequenceNumber < q := Nat.not_lt_of_gt hlt
    simp [hne, hnlt]
  · have hfc : List.filter (fun (m : Nat) =>
        decide ((s.expectedSequenceNumber : ℤ) - 1 < (m : ℤ))) s.senderWindow
        = List.filter (fun (m : Nat) => decide (s.expectedSequenceNumber ≤ m)) s.senderWindow := by
      apply List.filter_congr
      intro m _
      apply decide_eq_decide.mpr
      omega
    rw [sendAck_gbn_eq s q p hp hfind heq]
    simp [heq, hfc]
  · rw [sendAck_gbn_gt s q p hp hfind hgt]
    have hne : ¬ q = s.expectedSequenceNumber := Nat.ne_of_gt hgt
    simp [hne, hgt]

/-- C2 witness: Go-Back-N with window `[0, 1, 2]`, all frames Received and
`expectedSequenceNumber = 0`; acknowledging 0 advances the expected
number, keeps every window member `≥ 0` (all of them), appends an ACK
record and schedules the delayed ACK callback. -/
theorem c2_gbn_ack_amended_witness :
    ((step c6PreState (.ack 0)).expectedSequenceNumber =
        if 0 = c6PreState.expectedSequenceNumber then c6PreState.expectedSequenceNumber + 1
        else c6PreState.expectedSequenceNumber)
    ∧ ((step c6PreState (.ack 0)).senderWindow =
        if 0 = c6PreState.expectedSequenceNumber then
          c6PreState.senderWindow.filter (fun m => decide (c6PreState.expectedSequenceNumber ≤ m))
        else if c6PreState.expectedSequenceNumber < 0 then
          c6PreState.senderWindow.filter (fun m => decide (m ≠ 0))
        else c6PreState.senderWindow)
    ∧ (step c6PreState (.ack 0)).acks = c6PreState.acks ++
        [{ id := c6PreState.freshId, sequenceNumber := 0, status := .sending,
           timestamp := c6PreState.freshId, type := .ACK }]
    ∧ (step c6PreState (.ack 0)).pending =
        c6PreState.pending ++ [.ackDelay c6PreState.freshId 0 .ACK .goBackN] :=
  c2_gbn_ack_amended c6PreState 0
    { id := 0, sequenceNumber := 0, data := "Frame 0", status := .received,
      timestamp := 0, isRetransmission := false }
    (by decide) (by decide)

/-- C7 amended: under Stop-and-Wait, acknowledging a Received frame never
appends an ACK/NACK record (neither at call time nor when the delayed
callback fires); if the acked number equals `expectedSequenceNumber` the
outcome is a positive ACK, the expected number advances by 1 and, once
the delayed callback fires, frames with that sequence number become
Acknowledged and `awaitingAck` clears; otherwise the call is treated as
a NACK regardless of caller intent and its delayed callback changes
neither the frame statuses nor `awaitingAck`. -/
theorem c7_sw_ack_amended (s : SimState) (q : Nat) (p : Packet)
    (hp : s.protocol = .stopAndWait)
    (hfind : s.packets.find? (ackFound q) = some p) :
    (step s (.ack q)).acks = s.acks
    ∧ (step (step s (.ack q)) (.fire s.pending.length)).acks = s.acks
    ∧ ((step s (.ack q)).expectedSequenceNumber =
        if q = s.expectedSequenceNumber then s.expectedSequenceNumber + 1
        else s.expectedSequenceNumber)
    ∧ (step s (.ack q)).pending = s.pending ++
        [.ackDelay s.freshId q
          (if q = s.expectedSequenceNumber then .ACK else .NACK) .stopAndWait]
    ∧ (q = s.expectedSequenceNumber →
        (step (step s (.ack q)) (.fire s.pending.length)).packets =
          s.packets.map (fun r =>
            if r.sequenceNumber = q then { r with status := .acknowledged } else r)
        ∧ (step (step s (.ack q)) (.fire s.pending.length)).waitingForAck = false)
    ∧ (q ≠ s.expectedSequenceNumber →
        (step (step s (.ack q)) (.fire s.pending.length)).packets = s.packets
        ∧ (step (step s (.ack q)) (.fire s.pending.length)).waitingForAck = s.waitingForAck) := by
  have hstep : step s (.ack q) = sendAck s q := rfl
  by_cases hqe : q = s.expectedSequenceNumber
  · rw [hstep, sendAck_sw_eq s q p hp hfind hqe]
    have hfire : step
        { s with
          expectedSequenceNumber := s.expectedSequenceNumber + 1
          pending := s.pending ++ [.ackDelay s.freshId q .ACK .stopAndWait]
          freshId := s.freshId + 1 } (.fire s.pending.length) =
        fireEvent
          { s with
            expectedSequenceNumber := s.expectedSequenceNumber + 1
            pending := s.pending
            freshId := s.freshId + 1 } (.ackDelay s.freshId q .ACK .stopAndWait) :=
      step_fire_concat _ s.pending _ rfl
    rw [hfire, fireEvent_ackDelay_sw_ack]
    simp [hqe]
  · rw [hstep, sendAck_sw_ne s q p hp hfind hqe]
    have hfire : step
        { s with
          pending := s.pending ++ [.ackDelay s.freshId q .NACK .stopAndWait]
          freshId := s.freshId + 1 } (.fire s.pending.length) =
        fireEvent
          { s with pending := s.pending, freshId := s.freshId + 1 }
          (.ackDelay s.freshId q .NACK .stopAndWait) :=
      step_fire_concat _ s.pending _ rfl
    rw [hfire, fireEvent_ackDelay_sw_nack]
    simp [hqe]

/-- C7 witness: Stop-and-Wait with frame 0 Received and
`expectedSequenceNumber = 0` (the state reached by `setProtocol`, one
send and its arrival); acknowledging 0 matches the expected number. -/
theorem c7_sw_ack_amended_witness :
    (let s := steps initState [.setProt .stopAndWait, .send, .fire 0]
     (step s (.ack 0)).acks = s.acks
     ∧ (step (step s (.ack 0)) (.fire s.pending.length)).acks = s.acks
     ∧ ((step s (.ack 0)).expectedSequenceNumber =
         if 0 = s.expectedSequenceNumber then s.expectedSequenceNumber + 1
         else s.expectedSequenceNumber)
     ∧ (step s (.ack 0)).pending = s.pending ++
         [.ackDelay s.freshId 0
           (if 0 = s.expectedSequenceNumber then .ACK else .NACK) .stopAndWait]
     ∧ (0 = s.expectedSequenceNumber →
         (step (step s (.ack 0)) (.fire s.pending.length)).packets =
           s.packets.map (fun r =>
             if r.sequenceNumber = 0 then { r with status := .acknowledged } else r)
         ∧ (step (step s (.ack 0)) (.fire s.pending.length)).waitingForAck = false)
     ∧ (0 ≠ s.expectedSequenceNumber →
         (step (step s (.ack 0)) (.fire s.pending.length)).packets = s.packets
         ∧ (step (step s (.ack 0)) (.fire s.pending.length)).waitingForAck = s.waitingForAck)) :=
  c7_sw_ack_amended (steps initState [.setProt .stopAndWait, .send, .fire 0]) 0
    { id := 0, sequenceNumber := 0, data := "Frame 0", status := .received,
      timestamp := 0, isRetransmission := false }
    (by decide) (by decide)

/-- C4 amended: the success-rate query equals the rounded percentage of
Acknowledged frames over non-retransmission frames whenever at least one
frame exists and the denominator is positive; it equals 0 only in the
no-frames-at-all case; when frames exist but every one of them is a
retransmission the denominator is 0 and the JavaScript division yields
NaN (modelled `none`), not 0. -/
theorem c4_success_rate_amended :
    ∀ ps : List Packet,
      (ps = [] → successRate ps = some 0)
      ∧ (ps ≠ [] → (ps.filter (fun p => !p.isRetransmission)).length ≠ 0 →
          successRate ps =
            some (jsRound
              (((ps.filter (fun p => decide (p.status = .acknowledged))).length : ℚ)
                / ((ps.filter (fun p => !p.isRetransmission)).length : ℚ) * 100)))
      ∧ (ps ≠ [] → (ps.filter (fun p => !p.isRetransmission)).length = 0 →
          successRate ps = none) := by
  intro ps
  refine ⟨?_, ?_, ?_⟩
  · intro h
    subst h
    rfl
  · intro h hd
    unfold successRate
    rw [if_pos (List.length_pos.mpr h)]
    dsimp only
    rw [if_neg (by exact_mod_cast hd)]
  · intro h hd
    unfold successRate
    rw [if_pos (List.length_pos.mpr h)]
    dsimp only
    rw [if_pos (by exact_mod_cast hd)]

/-- C4 witness: a single acknowledged non-retransmission frame gives a
success rate of 100 percent. -/
theorem c4_success_rate_amended_witness :
    successRate [{ id := 0, sequenceNumber := 0, data := "Frame 0", status := .acknowledged,
                   timestamp := 0, isRetransmission := false }] = some 100 := by
  have h := (c4_success_rate_amended
    [{ id := 0, sequenceNumber := 0, data := "Frame 0", status := .acknowledged,
       timestamp := 0, isRetransmission := false }]).2.1 (by decide) (by decide)
  rw [h]
  norm_num [jsRound]

lemma retransmitPacket_senderWindow (s : SimState) (cpkts : List Packet) (q : Nat) (cp : Protocol) :
    (retransmitPacket s cpkts q cp).senderWindow = s.senderWindow := by
  unfold retransmitPacket
  cases hf : cpkts.find? (fun p => decide (p.sequenceNumber = q)) <;> rfl

lemma retransmitPacket_windowSize (s : SimState) (cpkts : List Packet) (q : Nat) (cp : Protocol) :
    (retransmitPacket s cpkts q cp).windowSize = s.windowSize := by
  unfold retransmitPacket
  cases hf : cpkts.find? (fun p => decide (p.sequenceNumber = q)) <;> rfl

lemma losePacket_senderWindow (s : SimState) (pid : Nat) :
    (losePacket s pid).senderWindow = s.senderWindow := by
  unfold losePacket
  cases hf : s.packets.find? (fun p => decide (p.id = pid)) with
  | none => rfl
  | some p => dsimp only; cases hp : s.protocol <;> rfl

lemma losePacket_windowSize (s : SimState) (pid : Nat) :
    (losePacket s pid).windowSize = s.windowSize := by
  unfold losePacket
  cases hf : s.packets.find? (fun p => decide (p.id = pid)) with
  | none => rfl
  | some p => dsimp only; cases hp : s.protocol <;> rfl

lemma sendAck_window_shape (s : SimState) (q : Nat) :
    (sendAck s q).windowSize = s.windowSize ∧
    ((sendAck s q).senderWindow = s.senderWindow
      ∨ ∃ f, (sendAck s q).senderWindow = s.senderWindow.filter f) := by
  unfold sendAck
  cases hf : s.packets.find? (ackFound q) with
  | none => exact ⟨rfl, Or.inl rfl⟩
  | some p =>
    dsimp only
    cases hp : s.protocol <;> dsimp only
    · exact ⟨rfl, Or.inl rfl⟩
    · split <;> exact ⟨rfl, Or.inl rfl⟩
    · split
      · split
        · exact ⟨rfl, Or.inr ⟨_, rfl⟩⟩
        · exact ⟨rfl, Or.inr ⟨_, rfl⟩⟩
      · exact ⟨rfl, Or.inl rfl⟩
    · split
      · exact ⟨rfl, Or.inl rfl⟩
      · exact ⟨rfl, Or.inl rfl⟩

lemma fireEvent_window_shape (t : SimState) (e : Ev) :
    (fireEvent t e).windowSize = t.windowSize ∧
    ((fireEvent t e).senderWindow = t.senderWindow
      ∨ ∃ f, (fireEvent t e).senderWindow = t.senderWindow.filter f) := by
  cases e with
  | frameArrive pid => exact ⟨rfl, Or.inl rfl⟩
  | retransArrive pid cp =>
    unfold fireEvent
    dsimp only
    split <;> exact ⟨rfl, Or.inl rfl⟩
  | ackDelay aid q ty cp =>
    unfold fireEvent
    dsimp only
    split <;> split <;> (try split) <;> (try split) <;>
      first
        | exact ⟨rfl, Or.inl rfl⟩
        | exact ⟨rfl, Or.inr ⟨_, rfl⟩⟩
  | nackDelay aid q cp cw cpkts =>
    refine ⟨?_, Or.inl ?_⟩ <;>
      cases cp <;>
        simp [fireEvent, retransmitPacket_windowSize, retransmitPacket_senderWindow]
  | gbnRetrans cw cpkts cp => exact ⟨rfl, Or.inl rfl⟩
  | retransCall q cpkts cp =>
    exact ⟨retransmitPacket_windowSize t cpkts q cp, Or.inl (retransmitPacket_senderWindow t cpkts q cp)⟩

lemma canSend_window_lt (s : SimState)
    (hgs : s.protocol = .goBackN ∨ s.protocol = .selectiveRepeat)
    (hc : canSendPacket s = true) : s.senderWindow.length < s.windowSize := by
  unfold canSendPacket at hc
  by_cases hsim : s.isSimulating
  · rw [if_pos hsim] at hc; cases hc
  · rw [if_neg hsim] at hc
    by_cases hlen : s.windowSize ≤ s.senderWindow.length
    · exfalso
      cases hprot : s.protocol <;> rw [hprot] at hc
      · rcases hgs with h | h <;> rw [hprot] at h <;> simp at h
      · rcases hgs with h | h <;> rw [hprot] at h <;> simp at h
      · dsimp only at hc; rw [if_pos hlen] at hc; cases hc
      · dsimp only at hc; rw [if_pos hlen] at hc; cases hc
    · exact Nat.lt_of_not_le hlen

lemma step_window_shape (s : SimState) (c : Cmd) :
    ((step s c).windowSize = s.windowSize ∧
      ((step s c).senderWindow = s.senderWindow
        ∨ (∃ f, (step s c).senderWindow = s.senderWindow.filter f)
        ∨ ((step s c).senderWindow = s.senderWindow ++ [s.nextSequenceNumber]
            ∧ s.senderWindow.length < s.windowSize)))
    ∨ (step s c).senderWindow = [] := by
  cases c with
  | setProt p => exact Or.inr rfl
  | setWin n => exact Or.inr rfl
  | reset => exact Or.inr rfl
  | nack q => exact Or.inl ⟨rfl, Or.inl rfl⟩
  | lose pid => exact Or.inl ⟨losePacket_windowSize s pid, Or.inl (losePacket_senderWindow s pid)⟩
  | ack q =>
    rcases sendAck_window_shape s q with ⟨h1, h2 | ⟨f, hf⟩⟩
    · exact Or.inl ⟨h1, Or.inl h2⟩
    · exact Or.inl ⟨h1, Or.inr (Or.inl ⟨f, hf⟩)⟩
  | fire i =>
    cases hg : s.pending.get? i with
    | none =>
      left
      constructor
      · simp only [step, hg]
      · left
        simp only [step, hg]
    | some e =>
      left
      rcases fireEvent_window_shape { s with pending := s.pending.eraseIdx i } e with ⟨h1, h2⟩
      constructor
      · simp only [step, hg]
        exact h1
      · simp only [step, hg]
        rcases h2 with h2 | ⟨f, hf⟩
        · exact Or.inl h2
        · exact Or.inr (Or.inl ⟨f, hf⟩)
  | send =>
    by_cases hc : canSendPacket s = true
    · by_cases hgs : s.protocol = .goBackN ∨ s.protocol = .selectiveRepeat
      · left
        refine ⟨?_, Or.inr (Or.inr ⟨?_, canSend_window_lt s hgs hc⟩)⟩
        · simp [step, sendPacket, hc]
        · simp [step, sendPacket, hc, hgs]
      · left
        refine ⟨?_, Or.inl ?_⟩ <;> simp [step, sendPacket, hc, hgs]
    · have hc' : canSendPacket s = false := by
        revert hc
        cases canSendPacket s <;> simp
      left
      refine ⟨?_, Or.inl ?_⟩ <;> simp [step, sendPacket, hc']

lemma reachable_window_le (s : SimState) (h : Reachable s) :
    s.senderWindow.length ≤ s.windowSize := by
  induction h with
  | init => exact Nat.zero_le _
  | step c hr ih =>
    rename_i t
    rcases step_window_shape t c with ⟨h1, h2 | ⟨f, hf⟩ | ⟨happ, hlt⟩⟩ | hempty
    · rw [h1, h2]; exact ih
    · rw [h1, hf]
      exact le_trans (List.length_filter_le f t.senderWindow) ih
    · rw [h1, happ]
      simp only [List.length_append, List.length_cons, List.length_nil]
      omega
    · rw [hempty]
      exact Nat.zero_le _

lemma reachable_steps (s : SimState) (h : Reachable s) (cs : List Cmd) :
    Reachable (steps s cs) := by
  induction cs generalizing s with
  | nil => exact h
  | cons c rest ih => exact ih (step s c) (Reachable.step c h)

lemma canSend_gbnsr_iff (s : SimState)
    (hsim : s.isSimulating = false)
    (hgs : s.protocol = .goBackN ∨ s.protocol = .selectiveRepeat) :
    canSendPacket s = true ↔
      (s.senderWindow.length < s.windowSize ∧
        (s.senderWindow = [] ∨
          ∃ b, jsMinInf s.senderWindow = some b
            ∧ (b : ℤ) ≤ (s.nextSequenceNumber : ℤ)
            ∧ (s.nextSequenceNumber : ℤ) ≤ (b : ℤ) + (s.windowSize : ℤ) - 1)) := by
  have hbody : canSendPacket s =
      (if s.windowSize ≤ s.senderWindow.length then false
       else if s.senderWindow.length = 0 then true
       else
         match jsMinInf s.senderWindow with
         | none => true
         | some base =>
           decide ((base : ℤ) ≤ (s.nextSequenceNumber : ℤ)
             ∧ (s.nextSequenceNumber : ℤ) ≤ (base : ℤ) + (s.windowSize : ℤ) - 1)) := by
    unfold canSendPacket
    rw [hsim]
    rcases hgs with hg | hg <;> rw [hg] <;> rfl
  rw [hbody]
  by_cases hlen : s.windowSize ≤ s.senderWindow.length
  · rw [if_pos hlen]
    simp [Nat.not_lt.mpr hlen]
  · rw [if_neg hlen]
    have hlt : s.senderWindow.length < s.windowSize := Nat.lt_of_not_le hlen
    by_cases hz : s.senderWindow.length = 0
    · have hwe : s.senderWindow = [] := List.length_eq_zero.mp hz
      rw [if_pos hz]
      rw [hwe] at hlt
      simp only [List.length_nil] at hlt
      simp [hwe, hlt]
    · rw [if_neg hz]
      have hwne : s.senderWindow ≠ [] := by
        intro hmt
        exact hz (by rw [hmt]; rfl)
      cases hmin : jsMinInf s.senderWindow with
      | none => exact absurd (jsMinInf_eq_none hmin) hwne
      | some b =>
        constructor
        · intro hdec
          exact ⟨hlt, Or.inr ⟨b, rfl, of_decide_eq_true hdec⟩⟩
        · rintro ⟨-, hwe | ⟨b', hb', hcond⟩⟩
          · exact absurd hwe hwne
          · cases hb'
            exact decide_eq_true hcond

/-- C5: under Go-Back-N and Selective-Repeat, with the busy flag clear,
`canSend` is true iff the window is below capacity and (the window is
empty or `nextSequenceNumber` lies in
`[min(window), min(window) + windowSize − 1]`); `sendFrame` is a no-op
whenever `canSend` is false; and in every reachable state the window
never exceeds `windowSize`. -/
theorem c5_window_gating :
    (∀ s : SimState, s.isSimulating = false →
        s.protocol = .goBackN ∨ s.protocol = .selectiveRepeat →
        (canSendPacket s = true ↔
          (s.senderWindow.length < s.windowSize ∧
            (s.senderWindow = [] ∨
              ∃ b, jsMinInf s.senderWindow = some b
                ∧ (b : ℤ) ≤ (s.nextSequenceNumber : ℤ)
                ∧ (s.nextSequenceNumber : ℤ) ≤ (b : ℤ) + (s.windowSize : ℤ) - 1))))
    ∧ (∀ s : SimState, canSendPacket s = false → step s .send = s)
    ∧ (∀ s : SimState, Reachable s → s.senderWindow.length ≤ s.windowSize) := by
  refine ⟨fun s hsim hgs => canSend_gbnsr_iff s hsim hgs, fun s h => ?_,
    fun s h => reachable_window_le s h⟩
  show sendPacket s = s
  unfold sendPacket
  rw [if_pos h]

/-- C5 witness: the reachable Go-Back-N state with window `[0, 1, 2]`
satisfies the eligibility criterion (window below capacity 4 and
`nextSequenceNumber = 3` inside `[0, 3]`); a state with a send mid-flight
is ineligible and its `sendFrame` is a no-op; the window bound holds at
the reachable state. -/
theorem c5_window_gating_witness :
    c6PreState.isSimulating = false
    ∧ (c6PreState.protocol = .goBackN ∨ c6PreState.protocol = .selectiveRepeat)
    ∧ canSendPacket c6PreState = true
    ∧ (c6PreState.senderWindow.length < c6PreState.windowSize ∧
        (c6PreState.senderWindow = [] ∨
          ∃ b, jsMinInf c6PreState.senderWindow = some b
            ∧ (b : ℤ) ≤ (c6PreState.nextSequenceNumber : ℤ)
            ∧ (c6PreState.nextSequenceNumber : ℤ) ≤
                (b : ℤ) + (c6PreState.windowSize : ℤ) - 1))
    ∧ canSendPacket (steps initState [.setProt .goBackN, .send]) = false
    ∧ step (steps initState [.setProt .goBackN, .send]) .send =
        steps initState [.setProt .goBackN, .send]
    ∧ Reachable c6PreState
    ∧ c6PreState.senderWindow.length ≤ c6PreState.windowSize := by
  have hreach : Reachable c6PreState := reachable_steps initState Reachable.init _
  refine ⟨by decide, Or.inl (by decide),
    by decide,
    (c5_window_gating.1 c6PreState (by decide) (Or.inl (by decide))).mp (by decide),
    by decide,
    c5_window_gating.2.1 _ (by decide),
    hreach,
    c5_window_gating.2.2 _ hreach⟩

lemma fireEvent_nackDelay_gbn (t : SimState) (aid q : Nat) (cw : List Nat) (cpkts : List Packet) :
    fireEvent t (.nackDelay aid q .goBackN cw cpkts) =
      { t with
        acks := t.acks.map (markAckReceived aid)
        packets := t.packets.map (fun p =>
          if p.sequenceNumber = q then { p with status := .lost } else p)
        pending := t.pending ++ [.gbnRetrans cw cpkts .goBackN] } := by
  unfold fireEvent
  simp

lemma fireEvent_gbnRetrans_eq (t : SimState) (cw : List Nat) (cpkts : List Packet) (cp : Protocol) :
    fireEvent t (.gbnRetrans cw cpkts cp) =
      { t with
        pending :=
          t.pending ++ (cw.filter (fun m => geInf (jsMinInf cw) m)).map
            (fun m => Ev.retransCall m cpkts cp) } := rfl

lemma mkRetransList_cons (cpkts : List Packet) (fid : Nat) (m : Nat) (rest : List Nat) :
    mkRetransList cpkts fid (m :: rest) =
      match cpkts.find? (fun p => decide (p.sequenceNumber = m)) with
      | none => mkRetransList cpkts fid rest
      | some orig =>
        { id := fid, sequenceNumber := m, data := orig.data, status := .retransmitting,
          timestamp := fid, isRetransmission := true } :: mkRetransList cpkts (fid + 1) rest := rfl

lemma retransChain (cpkts : List Packet) (cp : Protocol) :
    ∀ (l : List Nat) (t : SimState) (suf : List Ev),
      t.pending = l.map (fun m => Ev.retransCall m cpkts cp) ++ suf →
      (iterateFire l.length t).packets = t.packets ++ mkRetransList cpkts t.freshId l := by
  intro l
  induction l with
  | nil =>
    intro t suf h
    simp [iterateFire, mkRetransList]
  | cons m rest ih =>
    intro t suf h
    have hfire : step t (.fire 0) =
        fireEvent { t with pending := rest.map (fun m => Ev.retransCall m cpkts cp) ++ suf }
          (.retransCall m cpkts cp) := by
      apply step_fire_cons
      rw [h]
      rfl
    show (iterateFire rest.length (step t (.fire 0))).packets = _
    rw [hfire]
    cases hf : cpkts.find? (fun p => decide (p.sequenceNumber = m)) with
    | none =>
      have heq : fireEvent
          { t with pending := rest.map (fun m => Ev.retransCall m cpkts cp) ++ suf }
          (.retransCall m cpkts cp)
          = { t with pending := rest.map (fun m => Ev.retransCall m cpkts cp) ++ suf } := by
        show retransmitPacket _ cpkts m cp = _
        unfold retransmitPacket
        rw [hf]
      rw [heq, ih _ suf rfl, mkRetransList_cons, hf]
    | some orig =>
      have heq : fireEvent
          { t with pending := rest.map (fun m => Ev.retransCall m cpkts cp) ++ suf }
          (.retransCall m cpkts cp)
          = { t with
              packets := t.packets ++
                [{ id := t.freshId, sequenceNumber := m, data := orig.data,
                   status := .retransmitting, timestamp := t.freshId,
                   isRetransmission := true }]
              pending := (rest.map (fun m => Ev.retransCall m cpkts cp) ++ suf)
                ++ [.retransArrive t.freshId cp]
              freshId := t.freshId + 1 } := by
        show retransmitPacket _ cpkts m cp = _
        unfold retransmitPacket
        rw [hf]
      rw [heq, ih _ (suf ++ [.retransArrive t.freshId cp]) (by simp),
        mkRetransList_cons, hf]
      simp

lemma mkRetransList_spec (cpkts : List Packet) :
    ∀ (l : List Nat) (fid : Nat),
      (∀ m ∈ l, (cpkts.find? (fun p => decide (p.sequenceNumber = m))).isSome) →
      (mkRetransList cpkts fid l).map (fun p => p.sequenceNumber) = l
      ∧ (∀ p ∈ mkRetransList cpkts fid l, p.isRetransmission = true) := by
  intro l
  induction l with
  | nil =>
    intro fid h
    exact ⟨rfl, by intro p hp; cases hp⟩
  | cons m rest ih =>
    intro fid h
    have hm := h m (List.mem_cons_self m rest)
    rcases Option.isSome_iff_exists.mp hm with ⟨orig, hf⟩
    have hrest := fun x hx => h x (List.mem_cons_of_mem m hx)
    rw [mkRetransList_cons, hf]
    rcases ih (fid + 1) hrest with ⟨ih1, ih2⟩
    constructor
    · simp [ih1]
    · intro p hp
      rcases List.mem_cons.mp hp with hph | hpt
      · rw [hph]
      · exact ih2 p hpt

/-- C6: under Go-Back-N, negative-acknowledging any sequence number `q` in
the current window schedules, through the delayed callback chain, one
retransmission per window member `≥ min(window)` — i.e. the whole
outstanding window, since every member is `≥` the base — appended to the
registry as new frames in window (ascending) order, each with
`isRetransmission = true`. -/
theorem c6_gbn_nack_whole_window (s : SimState) (q : Nat)
    (hp : s.protocol = .goBackN)
    (hpend : s.pending = [])
    (_hq : q ∈ s.senderWindow)
    (hchain : s.senderWindow.Chain' (· < ·))
    (hfr : ∀ m ∈ s.senderWindow,
      (s.packets.find? (fun p => decide (p.sequenceNumber = m))).isSome) :
    ((iterateFire s.senderWindow.length
        (step (step (step s (.nack q)) (.fire 0)) (.fire 0))).packets.drop
        s.packets.length).map (fun p => p.sequenceNumber) = s.senderWindow
    ∧ (∀ p ∈ (iterateFire s.senderWindow.length
        (step (step (step s (.nack q)) (.fire 0)) (.fire 0))).packets.drop
        s.packets.length, p.isRetransmission = true)
    ∧ s.senderWindow.Chain' (· < ·) := by
  have h1 : step s (.nack q) = { s with
      acks := s.acks ++
        [{ id := s.freshId
           sequenceNumber := q
           status := .sending
           timestamp := s.freshId
           type := .NACK }]
      pending := [.nackDelay s.freshId q .goBackN s.senderWindow s.packets]
      freshId := s.freshId + 1 } := by
    show sendNack s q = _
    unfold sendNack
    rw [hp, hpend]
    simp
  have h2 : step (step s (.nack q)) (.fire 0) = { s with
      acks := (s.acks ++
        [({ id := s.freshId
            sequenceNumber := q
            status := .sending
            timestamp := s.freshId
            type := .NACK } : AckPacket)]).map (markAckReceived s.freshId)
      packets := s.packets.map (fun p =>
        if p.sequenceNumber = q then { p with status := .lost } else p)
      pending := [.gbnRetrans s.senderWindow s.packets .goBackN]
      freshId := s.freshId + 1 } := by
    rw [h1, step_fire_cons _ _ _ rfl, fireEvent_nackDelay_gbn]
    rfl
  have h3 : step (step (step s (.nack q)) (.fire 0)) (.fire 0) = { s with
      acks := (s.acks ++
        [({ id := s.freshId
            sequenceNumber := q
            status := .sending
            timestamp := s.freshId
            type := .NACK } : AckPacket)]).map (markAckReceived s.freshId)
      packets := s.packets.map (fun p =>
        if p.sequenceNumber = q then { p with status := .lost } else p)
      pending := s.senderWindow.map (fun m => Ev.retransCall m s.packets .goBackN)
      freshId := s.freshId + 1 } := by
    rw [h2, step_fire_cons _ _ _ rfl, fireEvent_gbnRetrans_eq, filter_geInf_self]
    rfl
  have hchainlem := retransChain s.packets .goBackN s.senderWindow
    { s with
      acks := (s.acks ++
        [({ id := s.freshId
            sequenceNumber := q
            status := .sending
            timestamp := s.freshId
            type := .NACK } : AckPacket)]).map (markAckReceived s.freshId)
      packets := s.packets.map (fun p =>
        if p.sequenceNumber = q then { p with status := .lost } else p)
      pending := s.senderWindow.map (fun m => Ev.retransCall m s.packets .goBackN)
      freshId := s.freshId + 1 } [] (by simp)
  have hdrop : ∀ l2 : List Packet,
      ((s.packets.map (fun p =>
        if p.sequenceNumber = q then { p with status := PStatus.lost } else p)) ++ l2).drop
        s.packets.length = l2 := by
    intro l2
    rw [← List.length_map s.packets (fun p =>
      if p.sequenceNumber = q then { p with status := PStatus.lost } else p)]
    exact List.drop_left _ _
  rcases mkRetransList_spec s.packets s.senderWindow (s.freshId + 1) hfr with ⟨hm1, hm2⟩
  rw [h3, hchainlem]
  refine ⟨?_, ?_, hchain⟩
  · rw [hdrop]
    exact hm1
  · rw [hdrop]
    exact hm2

/-- C6 witness: Go-Back-N with window `[0, 1, 2]` (base 0) and frames
0, 1, 2 in the registry; negative-acknowledging 1 retransmits all of
0, 1, 2 in ascending order as retransmission-flagged frames. -/
theorem c6_gbn_nack_whole_window_witness :
    ((iterateFire c6PreState.senderWindow.length
        (step (step (step c6PreState (.nack 1)) (.fire 0)) (.fire 0))).packets.drop
        c6PreState.packets.length).map (fun p => p.sequenceNumber) = c6PreState.senderWindow
    ∧ (∀ p ∈ (iterateFire c6PreState.senderWindow.length
        (step (step (step c6PreState (.nack 1)) (.fire 0)) (.fire 0))).packets.drop
        c6PreState.packets.length, p.isRetransmission = true)
    ∧ c6PreState.senderWindow.Chain' (· < ·) :=
  c6_gbn_nack_whole_window c6PreState 1 (by decide) (by decide) (by decide)
    (by
      rw [show c6PreState.senderWindow = [0, 1, 2] from by decide]
      exact List.chain'_cons.mpr ⟨by omega,
        List.chain'_cons.mpr ⟨by omega, List.chain'_singleton 2⟩⟩)
    (by decide)

/-- C10: under Go-Back-N, negative-acknowledging with an empty sender
window terminates without fault and schedules no retransmission: the
base `Math.min()` of the empty window is Infinity, the set of window
members `≥` it is empty, so after the whole callback chain the registry
has gained no frame (same ids and sequence numbers, matching frames
marked Lost), exactly one NACK record was appended, and no timeout
remains pending. -/
theorem c10_gbn_nack_empty_window (s : SimState) (q : Nat)
    (hp : s.protocol = .goBackN)
    (hw : s.senderWindow = [])
    (hpend : s.pending = []) :
    (step (step (step s (.nack q)) (.fire 0)) (.fire 0)).packets =
      s.packets.map (fun p =>
        if p.sequenceNumber = q then { p with status := .lost } else p)
    ∧ (step (step (step s (.nack q)) (.fire 0)) (.fire 0)).packets.length = s.packets.length
    ∧ (step (step (step s (.nack q)) (.fire 0)) (.fire 0)).acks.map
        (fun a => (a.sequenceNumber, a.type)) =
      s.acks.map (fun a => (a.sequenceNumber, a.type)) ++ [(q, .NACK)]
    ∧ (step (step (step s (.nack q)) (.fire 0)) (.fire 0)).pending = [] := by
  have h1 : step s (.nack q) = { s with
      acks := s.acks ++
        [{ id := s.freshId
           sequenceNumber := q
           status := .sending
           timestamp := s.freshId
           type := .NACK }]
      pending := [.nackDelay s.freshId q .goBackN s.senderWindow s.packets]
      freshId := s.freshId + 1 } := by
    show sendNack s q = _
    unfold sendNack
    rw [hp, hpend]
    simp
  have h2 : step (step s (.nack q)) (.fire 0) = { s with
      acks := (s.acks ++
        [({ id := s.freshId
            sequenceNumber := q
            status := .sending
            timestamp := s.freshId
            type := .NACK } : AckPacket)]).map (markAckReceived s.freshId)
      packets := s.packets.map (fun p =>
        if p.sequenceNumber = q then { p with status := .lost } else p)
      pending := [.gbnRetrans s.senderWindow s.packets .goBackN]
      freshId := s.freshId + 1 } := by
    rw [h1, step_fire_cons _ _ _ rfl, fireEvent_nackDelay_gbn]
    rfl
  have h3 : step (step (step s (.nack q)) (.fire 0)) (.fire 0) = { s with
      acks := (s.acks ++
        [({ id := s.freshId
            sequenceNumber := q
            status := .sending
            timestamp := s.freshId
            type := .NACK } : AckPacket)]).map (markAckReceived s.freshId)
      packets := s.packets.map (fun p =>
        if p.sequenceNumber = q then { p with status := .lost } else p)
      pending := []
      freshId := s.freshId + 1 } := by
    rw [h2, step_fire_cons _ _ _ rfl, fireEvent_gbnRetrans_eq, hw]
    rfl
  have htuple : ∀ a : AckPacket,
      ((markAckReceived s.freshId a).sequenceNumber, (markAckReceived s.freshId a).type)
        = (a.sequenceNumber, a.type) := by
    intro a
    unfold markAckReceived
    split <;> rfl
  rw [h3]
  refine ⟨rfl, by simp, ?_, rfl⟩
  simp only [List.map_map, List.map_append]
  have hleft : List.map ((fun a => (a.sequenceNumber, a.type)) ∘ markAckReceived s.freshId) s.acks
      = List.map (fun a : AckPacket => (a.sequenceNumber, a.type)) s.acks :=
    List.map_congr_left (fun a _ => htuple a)
  rw [hleft]
  simp [markAckReceived]

/-- C10 witness: Go-Back-N after frame 0 was sent, received, acknowledged
and its delayed callback fired — the window is empty again; negative
acknowledging 0 appends only the NACK record, marks frame 0 Lost, adds
no frame and leaves no timeout pending. -/
theorem c10_gbn_nack_empty_window_witness :
    (let s := steps initState [.setProt .goBackN, .send, .fire 0, .ack 0, .fire 0]
     (step (step (step s (.nack 0)) (.fire 0)) (.fire 0)).packets =
       s.packets.map (fun p =>
         if p.sequenceNumber = 0 then { p with status := .lost } else p)
     ∧ (step (step (step s (.nack 0)) (.fire 0)) (.fire 0)).packets.length = s.packets.length
     ∧ (step (step (step s (.nack 0)) (.fire 0)) (.fire 0)).acks.map
         (fun a => (a.sequenceNumber, a.type)) =
       s.acks.map (fun a => (a.sequenceNumber, a.type)) ++ [(0, .NACK)]
     ∧ (step (step (step s (.nack 0)) (.fire 0)) (.fire 0)).pending = []) :=
  c10_gbn_nack_empty_window
    (steps initState [.setProt .goBackN, .send, .fire 0, .ack 0, .fire 0]) 0
    (by decide) (by decide) (by decide)
